import Mathlib

/-!
Verification development for the call-session lifecycle tracker
(`vocode/streaming/utils/call_tracker.py`, class `CallTracker`).

The tracker keeps a registry (`_call_sessions : Dict[str, Dict[str, any]]`)
mapping a conversation id to a session record.  Timestamps in the source come
from `time.time()` and `datetime.now()`; here every operation receives the
captured time values as explicit integer parameters, so that properties about
them are exact over the embedded values.  The registry dict is embedded as an
association list with insert-or-replace and pop operations mirroring Python
dict semantics (replacement keeps the entry position; pop removes the key).
Log output (`logger.info` / `logger.warning`) is embedded as a list of
structured events returned by each operation.
-/

/-- Values that appear in the Python session dict: `None`, booleans,
numeric timestamps/durations, and strings.  `datetime` values are embedded
as numbers as well. -/
inductive Value where
  | vnone : Value
  | vbool : Bool → Value
  | vnum : Int → Value
  | vstr : String → Value
deriving DecidableEq, Repr

/-- The session record.  `start_call_tracking` creates the dict with exactly
these nine keys; `mark_agent_started` and `end_call_tracking` only assign to
keys that already exist, so the field set is fixed for the record's life. -/
structure Session where
  start_time : Int
  start_datetime : Int
  to_phone : String
  from_phone : String
  agent_started : Bool
  agent_start_time : Option Int
  end_time : Option Int
  end_datetime : Option Int
  duration : Option Int
deriving DecidableEq, Repr

def optValue : Option Int → Value
  | none => Value.vnone
  | some n => Value.vnum n

/-- The session record viewed as the Python dict it embeds: the nine keys in
the insertion order of the dict literal in `start_call_tracking`.  No code
path ever adds a further key to a stored session. -/
def Session.toDict (s : Session) : List (String × Value) :=
  [("start_time", Value.vnum s.start_time),
   ("start_datetime", Value.vnum s.start_datetime),
   ("to_phone", Value.vstr s.to_phone),
   ("from_phone", Value.vstr s.from_phone),
   ("agent_started", Value.vbool s.agent_started),
   ("agent_start_time", optValue s.agent_start_time),
   ("end_time", optValue s.end_time),
   ("end_datetime", optValue s.end_datetime),
   ("duration", optValue s.duration)]

/-- A copy of a session as returned by `get_call_status` / `get_active_calls`:
the session fields plus the derived `current_duration` key, which is present
(`some`) only when the copy was annotated. -/
structure SessionView where
  session : Session
  current_duration : Option Int
deriving DecidableEq, Repr

/-- Structured log events, one constructor per `logger.info` /
`logger.warning` call site in the source.  `agentDuration` in `callEnded`
is the value of the local `agent_duration` variable (None unless the agent
had started with a truthy `agent_start_time`). -/
inductive LogEvent where
  | callStarted : String → String → String → Int → LogEvent
  | agentStartedLog : String → Int → Int → LogEvent
  | callEnded : String → String → String → Int → Int → Int → Option Int → LogEvent
  | warnAgentStartNotFound : String → LogEvent
  | warnEndNotFound : String → LogEvent
deriving DecidableEq, Repr

/-- The registry.  `_call_sessions` embeds the Python dict as an association
list; keys are unique by construction from the empty registry. -/
structure CallTracker where
  _call_sessions : List (String × Session)
deriving DecidableEq, Repr

/-- `CallTracker.__init__`: the empty registry. -/
def emptyTracker : CallTracker := ⟨[]⟩

/-- Python dict assignment `d[k] = v`: replace the first entry with key `k`
in place, or append when the key is absent. -/
def dictInsert (k : String) (v : Session) :
    List (String × Session) → List (String × Session)
  | [] => [(k, v)]
  | p :: rest => if p.1 = k then (k, v) :: rest else p :: dictInsert k v rest

/-- Python `d.pop(k)`: remove the entry with key `k`.  (Keys are unique in
every reachable registry, so removing every occurrence is the same.) -/
def dictPop (k : String) : List (String × Session) → List (String × Session)
  | [] => []
  | p :: rest => if p.1 = k then dictPop k rest else p :: dictPop k rest

/-- First-match association-list lookup, embedding `d[k]` / `k in d`. -/
def lookupSession : List (String × Session) → String → Option Session
  | [], _ => none
  | p :: rest, id => if p.1 = id then some p.2 else lookupSession rest id

/-- `CallTracker.start_call_tracking`.  Captures the current times (passed in
as `start_time` / `start_datetime`), unconditionally installs a fresh record
under the id, and logs the start line.  Returns the new registry and the log
output (the Python method returns `None`). -/
def start_call_tracking (tr : CallTracker) (conversation_id to_phone from_phone : String)
    (start_time start_datetime : Int) : CallTracker × List LogEvent :=
  (⟨dictInsert conversation_id
      { start_time := start_time
        start_datetime := start_datetime
        to_phone := to_phone
        from_phone := from_phone
        agent_started := false
        agent_start_time := none
        end_time := none
        end_datetime := none
        duration := none } tr._call_sessions⟩,
   [LogEvent.callStarted conversation_id from_phone to_phone start_datetime])

/-- `CallTracker.mark_agent_started`.  On a missing id: warning, no state
change.  Otherwise sets `agent_started := true`, overwrites
`agent_start_time` with the new timestamp, and logs the setup duration
`agent_start_time - start_time`. -/
def mark_agent_started (tr : CallTracker) (conversation_id : String)
    (agent_start_time agent_start_datetime : Int) : CallTracker × List LogEvent :=
  match lookupSession tr._call_sessions conversation_id with
  | none => (tr, [LogEvent.warnAgentStartNotFound conversation_id])
  | some sess =>
      (⟨dictInsert conversation_id
          { sess with agent_started := true, agent_start_time := some agent_start_time }
          tr._call_sessions⟩,
       [LogEvent.agentStartedLog conversation_id agent_start_datetime
          (agent_start_time - sess.start_time)])

/-- The local `agent_duration` in `end_call_tracking`:
`if session['agent_started'] and session['agent_start_time']` — Python
truthiness, so an `agent_start_time` of `None` or `0` leaves it `None`. -/
def agentDurationOf (sess : Session) (end_time : Int) : Option Int :=
  if sess.agent_started then
    match sess.agent_start_time with
    | some t => if t = 0 then none else some (end_time - t)
    | none => none
  else none

/-- `CallTracker.end_call_tracking`.  On a missing id: warning, returns
`None`, no state change.  Otherwise sets `end_time`, `end_datetime` and
`duration := end_time - start_time` on the stored record, logs the summary
(with the `agent_duration` local), pops the record from the registry and
returns it. -/
def end_call_tracking (tr : CallTracker) (conversation_id : String)
    (end_time end_datetime : Int) : CallTracker × Option Session × List LogEvent :=
  match lookupSession tr._call_sessions conversation_id with
  | none => (tr, none, [LogEvent.warnEndNotFound conversation_id])
  | some sess =>
      let sess' : Session :=
        { sess with end_time := some end_time, end_datetime := some end_datetime,
                    duration := some (end_time - sess.start_time) }
      (⟨dictPop conversation_id tr._call_sessions⟩,
       some sess',
       [LogEvent.callEnded conversation_id sess.from_phone sess.to_phone
          sess.start_datetime end_datetime (end_time - sess.start_time)
          (agentDurationOf sess end_time)])

/-- `CallTracker.get_call_status`.  Returns a copy of the session; when the
session has not ended, the copy additionally carries
`current_duration = now - start_time`. -/
def get_call_status (tr : CallTracker) (conversation_id : String) (now : Int) :
    Option SessionView :=
  match lookupSession tr._call_sessions conversation_id with
  | none => none
  | some sess =>
      if sess.end_time = none then some ⟨sess, some (now - sess.start_time)⟩
      else some ⟨sess, none⟩

/-- `CallTracker.get_active_calls`.  Copies every stored session whose
`end_time` is `None`, annotating each copy with a freshly computed
`current_duration`. -/
def get_active_calls (tr : CallTracker) (now : Int) : List (String × SessionView) :=
  tr._call_sessions.filterMap fun p =>
    if p.2.end_time = none then some (p.1, ⟨p.2, some (now - p.2.start_time)⟩)
    else none

/-- One mutating API call together with the time values it captures.
The queries (`get_call_status`, `get_active_calls`) do not change state and
are applied directly to a reachable registry. -/
inductive Op where
  | start : String → String → String → Int → Int → Op
  | markAgent : String → Int → Int → Op
  | endCall : String → Int → Int → Op
deriving DecidableEq, Repr

/-- The state transition of one API call. -/
def stepOp (tr : CallTracker) : Op → CallTracker
  | Op.start id to_phone from_phone t dt => (start_call_tracking tr id to_phone from_phone t dt).1
  | Op.markAgent id t dt => (mark_agent_started tr id t dt).1
  | Op.endCall id t dt => (end_call_tracking tr id t dt).1

/-- Running a call trace from a given registry state. -/
def runFrom (tr : CallTracker) : List Op → CallTracker
  | [] => tr
  | op :: rest => runFrom (stepOp tr op) rest

/-- The registry state reached by a trace of API calls from a fresh tracker. -/
def run (ops : List Op) : CallTracker := runFrom emptyTracker ops

/-- One step of the spec-side "currently begun and not ended" predicate:
`begin` activates the id, `end` deactivates it, `mark_agent_started` is
irrelevant. -/
def activeUpd (id : String) (acc : Bool) : Op → Bool
  | Op.start i _ _ _ _ => if i = id then true else acc
  | Op.endCall i _ _ => if i = id then false else acc
  | Op.markAgent _ _ _ => acc

/-- Spec-side predicate over a trace: `begin` has been called on the id and
`end` has not subsequently been called. -/
def activeAfter (ops : List Op) (id : String) : Bool :=
  ops.foldl (activeUpd id) false

/-- One step of the spec-side "phones of the last begin" function. -/
def phonesUpd (id : String) (acc : Option (String × String)) :
    Op → Option (String × String)
  | Op.start i to_phone from_phone _ _ =>
      if i = id then some (to_phone, from_phone) else acc
  | Op.markAgent _ _ _ => acc
  | Op.endCall _ _ _ => acc

/-- Spec-side function over a trace: the phone numbers passed to the last
`begin` for the id, when any. -/
def lastBeginPhones (ops : List Op) (id : String) : Option (String × String) :=
  ops.foldl (phonesUpd id) none

/-- Spec-side predicate: the operation is a `begin` for the given id. -/
def beginsId (id : String) : Op → Bool
  | Op.start i _ _ _ _ => i = id
  | Op.markAgent _ _ _ => false
  | Op.endCall _ _ _ => false

/-! ### Lemmas about the embedded dict operations -/

theorem lookup_dictInsert (k : String) (v : Session) (l : List (String × Session)) (j : String) :
    lookupSession (dictInsert k v l) j = if k = j then some v else lookupSession l j := by
  induction l with
  | nil => simp [dictInsert, lookupSession]
  | cons p rest ih =>
      obtain ⟨a, b⟩ := p
      by_cases h1 : a = k
      · subst h1
        by_cases h2 : a = j <;> simp [dictInsert, lookupSession, h2]
      · by_cases h2 : a = j
        · subst h2
          have h3 : ¬ k = a := fun h => h1 h.symm
          simp [dictInsert, lookupSession, h1, h3]
        · simp [dictInsert, lookupSession, h1, h2, ih]

theorem lookup_dictPop (k : String) (l : List (String × Session)) (j : String) :
    lookupSession (dictPop k l) j = if k = j then none else lookupSession l j := by
  induction l with
  | nil => simp [dictPop, lookupSession]
  | cons p rest ih =>
      obtain ⟨a, b⟩ := p
      by_cases h1 : a = k
      · subst h1
        by_cases h2 : a = j
        · subst h2
          simp only [dictPop, if_pos rfl]
          simpa using ih
        · simp [dictPop, lookupSession, h2, ih]
      · by_cases h2 : a = j
        · subst h2
          have h3 : ¬ k = a := fun h => h1 h.symm
          simp [dictPop, lookupSession, h1, h3]
        · simp [dictPop, lookupSession, h1, h2, ih]

theorem mem_of_lookup (l : List (String × Session)) (j : String) (sess : Session)
    (h : lookupSession l j = some sess) : (j, sess) ∈ l := by
  induction l with
  | nil => simp [lookupSession] at h
  | cons p rest ih =>
      obtain ⟨a, b⟩ := p
      by_cases h1 : a = j
      · subst h1
        simp [lookupSession] at h
        subst h
        exact List.mem_cons_self _ _
      · simp [lookupSession, h1] at h
        exact List.mem_cons_of_mem _ (ih h)

theorem lookup_isSome_of_mem (l : List (String × Session)) (j : String) (sess : Session)
    (h : (j, sess) ∈ l) : (lookupSession l j).isSome = true := by
  induction l with
  | nil => simp at h
  | cons p rest ih =>
      obtain ⟨a, b⟩ := p
      rcases List.mem_cons.mp h with h | h
      · have : a = j := (Prod.mk.injEq _ _ _ _ ▸ h.symm).1
        simp [lookupSession, this]
      · by_cases h1 : a = j <;> simp [lookupSession, h1, ih h]

theorem mem_dictInsert (k : String) (v : Session) (l : List (String × Session))
    (q : String × Session) (h : q ∈ dictInsert k v l) : q = (k, v) ∨ q ∈ l := by
  induction l with
  | nil => simp [dictInsert] at h; simp [h]
  | cons p rest ih =>
      obtain ⟨a, b⟩ := p
      by_cases h1 : a = k
      · simp [dictInsert, h1] at h
        rcases h with h | h
        · left; simp [h]
        · right; exact List.mem_cons_of_mem _ h
      · simp [dictInsert, h1] at h
        rcases h with h | h
        · right; simp [h]
        · rcases ih h with h | h
          · left; exact h
          · right; exact List.mem_cons_of_mem _ h

theorem mem_dictPop (k : String) (l : List (String × Session))
    (q : String × Session) (h : q ∈ dictPop k l) : q ∈ l := by
  induction l with
  | nil => simp [dictPop] at h
  | cons p rest ih =>
      obtain ⟨a, b⟩ := p
      by_cases h1 : a = k
      · simp [dictPop, h1] at h
        exact List.mem_cons_of_mem _ (ih h)
      · simp [dictPop, h1] at h
        rcases h with h | h
        · simp [h]
        · exact List.mem_cons_of_mem _ (ih h)

/-! ### Characterizations of the three mutating operations -/

theorem lookup_after_start (tr : CallTracker) (id to_phone from_phone : String) (t dt : Int)
    (j : String) :
    lookupSession ((start_call_tracking tr id to_phone from_phone t dt).1)._call_sessions j =
      if id = j then
        some { start_time := t, start_datetime := dt, to_phone := to_phone,
               from_phone := from_phone, agent_started := false, agent_start_time := none,
               end_time := none, end_datetime := none, duration := none }
      else lookupSession tr._call_sessions j := by
  simp [start_call_tracking, lookup_dictInsert]

theorem lookup_start_self (tr : CallTracker) (id to_phone from_phone : String) (t dt : Int) :
    lookupSession ((start_call_tracking tr id to_phone from_phone t dt).1)._call_sessions id =
      some { start_time := t, start_datetime := dt, to_phone := to_phone,
             from_phone := from_phone, agent_started := false, agent_start_time := none,
             end_time := none, end_datetime := none, duration := none } := by
  rw [lookup_after_start]
  simp

theorem mark_not_found (tr : CallTracker) (id : String) (t dt : Int)
    (h : lookupSession tr._call_sessions id = none) :
    mark_agent_started tr id t dt = (tr, [LogEvent.warnAgentStartNotFound id]) := by
  simp [mark_agent_started, h]

theorem mark_found (tr : CallTracker) (id : String) (t dt : Int) (sess : Session)
    (h : lookupSession tr._call_sessions id = some sess) :
    mark_agent_started tr id t dt =
      (⟨dictInsert id { sess with agent_started := true, agent_start_time := some t }
          tr._call_sessions⟩,
       [LogEvent.agentStartedLog id dt (t - sess.start_time)]) := by
  simp [mark_agent_started, h]

theorem end_not_found (tr : CallTracker) (id : String) (t dt : Int)
    (h : lookupSession tr._call_sessions id = none) :
    end_call_tracking tr id t dt = (tr, none, [LogEvent.warnEndNotFound id]) := by
  simp [end_call_tracking, h]

theorem end_found (tr : CallTracker) (id : String) (t dt : Int) (sess : Session)
    (h : lookupSession tr._call_sessions id = some sess) :
    end_call_tracking tr id t dt =
      (⟨dictPop id tr._call_sessions⟩,
       some { sess with end_time := some t, end_datetime := some dt,
                        duration := some (t - sess.start_time) },
       [LogEvent.callEnded id sess.from_phone sess.to_phone sess.start_datetime dt
          (t - sess.start_time) (agentDurationOf sess t)]) := by
  simp [end_call_tracking, h]

/-! ### The open-sessions invariant -/

/-- Every record stored in the registry has `end_time` unset: `end_call_tracking`
removes the record in the same operation that sets `end_time`. -/
def allOpen (tr : CallTracker) : Prop :=
  ∀ p ∈ tr._call_sessions, p.2.end_time = none

theorem allOpen_step (tr : CallTracker) (op : Op) (h : allOpen tr) : allOpen (stepOp tr op) := by
  cases op with
  | start id to_phone from_phone t dt =>
      intro p hp
      simp only [stepOp, start_call_tracking] at hp
      rcases mem_dictInsert _ _ _ _ hp with h1 | h1
      · simp [h1]
      · exact h p h1
  | markAgent id t dt =>
      cases hl : lookupSession tr._call_sessions id with
      | none =>
          simpa only [stepOp, mark_not_found tr id t dt hl] using h
      | some sess =>
          intro p hp
          simp only [stepOp, mark_found tr id t dt sess hl] at hp
          rcases mem_dictInsert _ _ _ _ hp with h1 | h1
          · have := h (id, sess) (mem_of_lookup _ _ _ hl)
            simp [h1]
            exact this
          · exact h p h1
  | endCall id t dt =>
      cases hl : lookupSession tr._call_sessions id with
      | none =>
          simpa only [stepOp, end_not_found tr id t dt hl] using h
      | some sess =>
          intro p hp
          simp only [stepOp, end_found tr id t dt sess hl] at hp
          exact h p (mem_dictPop _ _ _ hp)

theorem allOpen_runFrom (ops : List Op) (tr : CallTracker) (h : allOpen tr) :
    allOpen (runFrom tr ops) := by
  induction ops generalizing tr with
  | nil => exact h
  | cons op rest ih => exact ih _ (allOpen_step _ _ h)

theorem allOpen_run (ops : List Op) : allOpen (run ops) :=
  allOpen_runFrom ops emptyTracker (by intro p hp; simp [emptyTracker] at hp)

/-! ### Registry membership along a trace -/

theorem isSome_stepOp (tr : CallTracker) (op : Op) (id : String) :
    (lookupSession (stepOp tr op)._call_sessions id).isSome =
      activeUpd id (lookupSession tr._call_sessions id).isSome op := by
  cases op with
  | start i to_phone from_phone t dt =>
      simp only [stepOp, lookup_after_start, activeUpd]
      by_cases hi : i = id <;> simp [hi]
  | markAgent i t dt =>
      cases hl : lookupSession tr._call_sessions i with
      | none => simp [stepOp, mark_not_found tr i t dt hl, activeUpd]
      | some sess =>
          simp only [stepOp, mark_found tr i t dt sess hl, lookup_dictInsert, activeUpd]
          by_cases hi : i = id
          · subst hi
            simp [hl]
          · simp [hi]
  | endCall i t dt =>
      cases hl : lookupSession tr._call_sessions i with
      | none =>
          simp only [stepOp, end_not_found tr i t dt hl, activeUpd]
          by_cases hi : i = id
          · subst hi
            simp [hl]
          · simp [hi]
      | some sess =>
          simp only [stepOp, end_found tr i t dt sess hl, lookup_dictPop, activeUpd]
          by_cases hi : i = id <;> simp [hi]

theorem isSome_runFrom (ops : List Op) (tr : CallTracker) (id : String) :
    (lookupSession (runFrom tr ops)._call_sessions id).isSome =
      ops.foldl (activeUpd id) (lookupSession tr._call_sessions id).isSome := by
  induction ops generalizing tr with
  | nil => rfl
  | cons op rest ih =>
      simp only [runFrom, List.foldl_cons]
      rw [ih, isSome_stepOp]

/-! ### Keys of `get_active_calls` -/

theorem mem_activeKeys_iff (tr : CallTracker) (now : Int) (id : String) :
    id ∈ (get_active_calls tr now).map Prod.fst ↔
      ∃ sess, (id, sess) ∈ tr._call_sessions ∧ sess.end_time = none := by
  simp only [get_active_calls, List.mem_map, List.mem_filterMap]
  constructor
  · rintro ⟨x, ⟨p, hp, hf⟩, hx⟩
    obtain ⟨a, b⟩ := p
    by_cases he : b.end_time = none
    · simp only [he, if_pos] at hf
      cases hf
      refine ⟨b, ?_, he⟩
      simpa [← hx] using hp
    · simp [he] at hf
  · rintro ⟨sess, hmem, he⟩
    exact ⟨(id, ⟨sess, some (now - sess.start_time)⟩), ⟨(id, sess), hmem, by simp [he]⟩, rfl⟩

theorem activeKeys_list (l : List (String × Session)) (now : Int)
    (h : ∀ p ∈ l, p.2.end_time = none) :
    (l.filterMap (fun p =>
        if p.2.end_time = none then
          some (p.1, (⟨p.2, some (now - p.2.start_time)⟩ : SessionView))
        else none)).map Prod.fst = l.map Prod.fst := by
  induction l with
  | nil => rfl
  | cons p rest ih =>
      have hp := h p (List.mem_cons_self _ _)
      simp only [List.filterMap_cons, hp, if_pos, List.map_cons]
      rw [ih (fun q hq => h q (List.mem_cons_of_mem _ hq))]

theorem activeKeys_of_allOpen (tr : CallTracker) (now : Int) (h : allOpen tr) :
    (get_active_calls tr now).map Prod.fst = tr._call_sessions.map Prod.fst :=
  activeKeys_list tr._call_sessions now h

/-! ### Phone numbers along a trace -/

theorem phones_runFrom (ops : List Op) (id : String) (tr : CallTracker)
    (acc : Option (String × String))
    (hacc : ∀ sess, lookupSession tr._call_sessions id = some sess →
      acc = some (sess.to_phone, sess.from_phone)) :
    ∀ sess, lookupSession (runFrom tr ops)._call_sessions id = some sess →
      ops.foldl (phonesUpd id) acc = some (sess.to_phone, sess.from_phone) := by
  induction ops generalizing tr acc with
  | nil => exact hacc
  | cons op rest ih =>
      intro sess h
      simp only [runFrom] at h
      simp only [List.foldl_cons]
      refine ih (stepOp tr op) _ ?_ sess h
      intro sess1 h1
      cases op with
      | start i to_phone from_phone t dt =>
          simp only [stepOp, lookup_after_start] at h1
          by_cases hi : i = id
          · rw [if_pos hi] at h1
            cases h1
            simp [phonesUpd, hi]
          · rw [if_neg hi] at h1
            simpa [phonesUpd, hi] using hacc sess1 h1
      | markAgent i t dt =>
          cases hl : lookupSession tr._call_sessions i with
          | none =>
              rw [show stepOp tr (Op.markAgent i t dt) = tr by
                simp [stepOp, mark_not_found tr i t dt hl]] at h1
              simpa [phonesUpd] using hacc sess1 h1
          | some sess0 =>
              simp only [stepOp, mark_found tr i t dt sess0 hl, lookup_dictInsert] at h1
              by_cases hi : i = id
              · rw [if_pos hi] at h1
                cases h1
                subst hi
                simpa [phonesUpd] using hacc sess0 hl
              · rw [if_neg hi] at h1
                simpa [phonesUpd] using hacc sess1 h1
      | endCall i t dt =>
          cases hl : lookupSession tr._call_sessions i with
          | none =>
              rw [show stepOp tr (Op.endCall i t dt) = tr by
                simp [stepOp, end_not_found tr i t dt hl]] at h1
              simpa [phonesUpd] using hacc sess1 h1
          | some sess0 =>
              simp only [stepOp, end_found tr i t dt sess0 hl, lookup_dictPop] at h1
              by_cases hi : i = id
              · rw [if_pos hi] at h1
                cases h1
              · rw [if_neg hi] at h1
                simpa [phonesUpd] using hacc sess1 h1

theorem notMem_activeKeys_of_lookup_none (tr : CallTracker) (now : Int) (id : String)
    (h : lookupSession tr._call_sessions id = none) :
    id ∉ (get_active_calls tr now).map Prod.fst := by
  intro hmem
  obtain ⟨sess, hmem2, _⟩ := (mem_activeKeys_iff tr now id).mp hmem
  have h2 := lookup_isSome_of_mem _ _ _ hmem2
  rw [h] at h2
  simp at h2

/-! ### The claims -/

/-- Claim C3: for every conversation id not present in the registry,
`end_call_tracking` returns `None` (after a warning log), raises nothing, and
leaves the registry state unchanged. -/
theorem claim_C3_end_missing_id (tr : CallTracker) (id : String) (t dt : Int)
    (h : lookupSession tr._call_sessions id = none) :
    end_call_tracking tr id t dt = (tr, none, [LogEvent.warnEndNotFound id]) :=
  end_not_found tr id t dt h

/-- Witness for claim C3 at the empty registry. -/
theorem claim_C3_end_missing_id_witness :
    lookupSession emptyTracker._call_sessions "c9" = none ∧
    end_call_tracking emptyTracker "c9" 5 5 =
      (emptyTracker, none, [LogEvent.warnEndNotFound "c9"]) :=
  ⟨by decide, claim_C3_end_missing_id emptyTracker "c9" 5 5 (by decide)⟩

/-- Claim C4: for every id and every prior registry state, `start_call_tracking`
installs a freshly initialized record under the id — the given phone numbers,
the captured start time, `agent_started = false`, and `agent_start_time`,
`end_time` and `duration` all unset — silently replacing any previous record. -/
theorem claim_C4_begin_installs_fresh (tr : CallTracker) (id to_phone from_phone : String)
    (t dt : Int) :
    lookupSession ((start_call_tracking tr id to_phone from_phone t dt).1)._call_sessions id =
      some { start_time := t, start_datetime := dt, to_phone := to_phone,
             from_phone := from_phone, agent_started := false, agent_start_time := none,
             end_time := none, end_datetime := none, duration := none } :=
  lookup_start_self tr id to_phone from_phone t dt

/-- Claim C5: `mark_agent_started` on an id not in the registry logs a warning,
returns without raising, and leaves the state unchanged, so a later
`start_call_tracking` on the id behaves exactly as with no prior call. -/
theorem claim_C5_mark_missing_id (tr : CallTracker) (id : String) (t dt : Int)
    (h : lookupSession tr._call_sessions id = none) :
    mark_agent_started tr id t dt = (tr, [LogEvent.warnAgentStartNotFound id]) ∧
    ∀ to_phone from_phone t2 dt2,
      start_call_tracking (mark_agent_started tr id t dt).1 id to_phone from_phone t2 dt2 =
        start_call_tracking tr id to_phone from_phone t2 dt2 := by
  have h1 := mark_not_found tr id t dt h
  exact ⟨h1, fun to_phone from_phone t2 dt2 => by rw [h1]⟩

/-- Witness for claim C5 at the empty registry. -/
theorem claim_C5_mark_missing_id_witness :
    lookupSession emptyTracker._call_sessions "c2" = none ∧
    mark_agent_started emptyTracker "c2" 7 7 =
      (emptyTracker, [LogEvent.warnAgentStartNotFound "c2"]) ∧
    start_call_tracking (mark_agent_started emptyTracker "c2" 7 7).1 "c2" "+1555" "+1777" 8 8 =
      start_call_tracking emptyTracker "c2" "+1555" "+1777" 8 8 := by
  refine ⟨by decide, ?_, ?_⟩
  · exact (claim_C5_mark_missing_id emptyTracker "c2" 7 7 (by decide)).1
  · exact (claim_C5_mark_missing_id emptyTracker "c2" 7 7 (by decide)).2 "+1555" "+1777" 8 8

/-- Along any trace containing no `begin` for the id, a session still stored
under the id descends from one already stored at the starting state, with
`start_time` and `end_time` unchanged: `mark_agent_started` touches only the
agent fields and `end_call_tracking` removes rather than mutates in place. -/
theorem lookup_runFrom_no_begin (ops : List Op) (id : String) (tr : CallTracker)
    (hno : ∀ op ∈ ops, beginsId id op = false) :
    ∀ sess2, lookupSession (runFrom tr ops)._call_sessions id = some sess2 →
      ∃ sess, lookupSession tr._call_sessions id = some sess ∧
        sess2.start_time = sess.start_time ∧ sess2.end_time = sess.end_time := by
  induction ops generalizing tr with
  | nil => exact fun sess2 h2 => ⟨sess2, h2, rfl, rfl⟩
  | cons op rest ih =>
      intro sess2 h2
      obtain ⟨sessM, hM, hst, het⟩ :=
        ih (stepOp tr op) (fun o ho => hno o (List.mem_cons_of_mem _ ho)) sess2 h2
      have hop := hno op (List.mem_cons_self _ _)
      cases op with
      | start i to_phone from_phone t dt =>
          have hi : ¬ i = id := by simpa [beginsId] using hop
          rw [stepOp, lookup_after_start, if_neg hi] at hM
          exact ⟨sessM, hM, hst, het⟩
      | markAgent i t dt =>
          cases hl : lookupSession tr._call_sessions i with
          | none =>
              rw [show stepOp tr (Op.markAgent i t dt) = tr by
                simp [stepOp, mark_not_found tr i t dt hl]] at hM
              exact ⟨sessM, hM, hst, het⟩
          | some sess0 =>
              rw [stepOp, mark_found tr i t dt sess0 hl] at hM
              simp only [lookup_dictInsert] at hM
              by_cases hi : i = id
              · rw [if_pos hi] at hM
                cases hM
                subst hi
                exact ⟨sess0, hl, hst, het⟩
              · rw [if_neg hi] at hM
                exact ⟨sessM, hM, hst, het⟩
      | endCall i t dt =>
          cases hl : lookupSession tr._call_sessions i with
          | none =>
              rw [show stepOp tr (Op.endCall i t dt) = tr by
                simp [stepOp, end_not_found tr i t dt hl]] at hM
              exact ⟨sessM, hM, hst, het⟩
          | some sess0 =>
              rw [stepOp, end_found tr i t dt sess0 hl] at hM
              simp only [lookup_dictPop] at hM
              by_cases hi : i = id
              · rw [if_pos hi] at hM
                cases hM
              · rw [if_neg hi] at hM
                exact ⟨sessM, hM, hst, het⟩

/-- Claim C8: on a live session, `get_call_status` returns a view whose
`current_duration` is `now - start_time`; for two polls at clock readings
`t1 ≤ t2` with any operations in between except a `begin` for the polled id
— an intervening `mark_agent_started` on the id, or begin/end of other ids,
are allowed — the second poll's `current_duration` (when the session is still
found) is at least the first poll's. -/
theorem claim_C8_current_duration_monotone (tr : CallTracker) (ops : List Op) (id : String)
    (sess : Session) (t1 t2 : Int)
    (hs : lookupSession tr._call_sessions id = some sess)
    (hopen : sess.end_time = none)
    (hno : ∀ op ∈ ops, beginsId id op = false)
    (hle : t1 ≤ t2) :
    get_call_status tr id t1 = some ⟨sess, some (t1 - sess.start_time)⟩ ∧
    ∀ v2, get_call_status (runFrom tr ops) id t2 = some v2 →
      v2.current_duration = some (t2 - sess.start_time) ∧
      t1 - sess.start_time ≤ t2 - sess.start_time := by
  constructor
  · simp [get_call_status, hs, hopen]
  · intro v2 h2
    cases hl2 : lookupSession (runFrom tr ops)._call_sessions id with
    | none =>
        rw [get_call_status, hl2] at h2
        simp at h2
    | some sess2 =>
        obtain ⟨sess1, hs1, hst, het⟩ := lookup_runFrom_no_begin ops id tr hno sess2 hl2
        rw [hs] at hs1
        cases hs1
        have hgc : get_call_status (runFrom tr ops) id t2 =
            some ⟨sess2, some (t2 - sess2.start_time)⟩ := by
          rw [get_call_status, hl2]
          simp [het, hopen]
        rw [hgc] at h2
        cases h2
        exact ⟨by rw [hst], by omega⟩

/-- Witness for claim C8 with an intervening `mark_agent_started` on the
polled id between the two polls. -/
theorem claim_C8_current_duration_monotone_witness :
    get_call_status (⟨[("c1", ⟨10, 10, "+1555", "+1777", false, none, none, none, none⟩)]⟩)
        "c1" 15 = some ⟨⟨10, 10, "+1555", "+1777", false, none, none, none, none⟩, some (15 - 10)⟩ ∧
    (⟨⟨10, 10, "+1555", "+1777", true, some 16, none, none, none⟩, some (18 - 10)⟩ :
        SessionView).current_duration = some (18 - 10) ∧
    (15 : Int) - 10 ≤ 18 - 10 := by
  have h := claim_C8_current_duration_monotone
    ⟨[("c1", ⟨10, 10, "+1555", "+1777", false, none, none, none, none⟩)]⟩
    [Op.markAgent "c1" 16 16] "c1"
    ⟨10, 10, "+1555", "+1777", false, none, none, none, none⟩ 15 18
    (by decide) (by decide) (by decide) (by decide)
  exact ⟨h.1, h.2 ⟨⟨10, 10, "+1555", "+1777", true, some 16, none, none, none⟩, some (18 - 10)⟩
    (by decide)⟩

/-- Claim C2: at every reachable registry state, the key set of
`get_active_calls` is exactly the set of ids for which `begin` has been called
and `end` has not subsequently been called. -/
theorem claim_C2_active_keys (ops : List Op) (now : Int) (id : String) :
    id ∈ (get_active_calls (run ops) now).map Prod.fst ↔ activeAfter ops id = true := by
  rw [mem_activeKeys_iff]
  constructor
  · rintro ⟨sess, hmem, -⟩
    have h1 := lookup_isSome_of_mem _ _ _ hmem
    have h2 := isSome_runFrom ops emptyTracker id
    rw [show runFrom emptyTracker ops = run ops from rfl, h1] at h2
    exact h2.symm
  · intro h
    have h2 := isSome_runFrom ops emptyTracker id
    have h3 : (lookupSession (run ops)._call_sessions id).isSome = true := h2.trans h
    obtain ⟨sess, hs⟩ := Option.isSome_iff_exists.mp h3
    exact ⟨sess, mem_of_lookup _ _ _ hs,
      allOpen_run ops (id, sess) (mem_of_lookup _ _ _ hs)⟩

/-- Witness for claim C2: after a lone begin, the id is listed as active. -/
theorem claim_C2_active_keys_witness :
    "c1" ∈ (get_active_calls (run [Op.start "c1" "+1555" "+1777" 10 10]) 20).map Prod.fst :=
  (claim_C2_active_keys [Op.start "c1" "+1555" "+1777" 10 10] 20 "c1").mpr (by decide)

/-- Claim C10: at every reachable registry state every stored session has
`end_time` unset, so the `end_time` filter in `get_active_calls` excludes no
stored session (the key lists coincide), and a found `get_call_status` result
carries a `current_duration`. -/
theorem claim_C10_stored_sessions_open (ops : List Op) (id : String) (sess : Session)
    (now : Int) (h : lookupSession (run ops)._call_sessions id = some sess) :
    sess.end_time = none ∧
    (get_active_calls (run ops) now).map Prod.fst = (run ops)._call_sessions.map Prod.fst ∧
    get_call_status (run ops) id now = some ⟨sess, some (now - sess.start_time)⟩ := by
  have hopen := allOpen_run ops (id, sess) (mem_of_lookup _ _ _ h)
  refine ⟨hopen, activeKeys_of_allOpen _ _ (allOpen_run ops), ?_⟩
  simp only [get_call_status, h]
  rw [if_pos hopen]

/-- Witness for claim C10 after a lone begin. -/
theorem claim_C10_stored_sessions_open_witness :
    (⟨10, 11, "+1555", "+1777", false, none, none, none, none⟩ : Session).end_time = none ∧
    (get_active_calls (run [Op.start "c1" "+1555" "+1777" 10 11]) 20).map Prod.fst =
      (run [Op.start "c1" "+1555" "+1777" 10 11])._call_sessions.map Prod.fst ∧
    get_call_status (run [Op.start "c1" "+1555" "+1777" 10 11]) "c1" 20 =
      some ⟨⟨10, 11, "+1555", "+1777", false, none, none, none, none⟩,
            some (20 - (⟨10, 11, "+1555", "+1777", false, none, none, none, none⟩ : Session).start_time)⟩ :=
  claim_C10_stored_sessions_open [Op.start "c1" "+1555" "+1777" 10 11] "c1"
    ⟨10, 11, "+1555", "+1777", false, none, none, none, none⟩ 20 (by decide)

/-- Claim C9: at every reachable state, a stored session's `to_phone` and
`from_phone` are exactly those passed to the last `begin` that created it —
no later operation modifies them — and the snapshot returned by
`end_call_tracking` carries those same values. -/
theorem claim_C9_phones_immutable (ops : List Op) (id : String) (sess : Session) (t dt : Int)
    (h : lookupSession (run ops)._call_sessions id = some sess) :
    lastBeginPhones ops id = some (sess.to_phone, sess.from_phone) ∧
    ∀ r, (end_call_tracking (run ops) id t dt).2.1 = some r →
      r.to_phone = sess.to_phone ∧ r.from_phone = sess.from_phone := by
  constructor
  · exact phones_runFrom ops id emptyTracker none
      (by intro s hs; simp [emptyTracker, lookupSession] at hs) sess h
  · intro r hr
    rw [end_found _ id t dt sess h] at hr
    simp only [Option.some.injEq] at hr
    subst hr
    exact ⟨rfl, rfl⟩

/-- Witness for claim C9: the phones of the last begin reach the stored record. -/
theorem claim_C9_phones_immutable_witness :
    lastBeginPhones [Op.start "c1" "+1555" "+1777" 10 10, Op.markAgent "c1" 11 11] "c1" =
      some ("+1555", "+1777") :=
  (claim_C9_phones_immutable [Op.start "c1" "+1555" "+1777" 10 10, Op.markAgent "c1" 11 11]
    "c1" ⟨10, 10, "+1555", "+1777", true, some 11, none, none, none⟩ 12 12 (by decide)).1

/-- Claim C6: a second `mark_agent_started` on a live session overwrites
`agent_start_time` with the later timestamp (last-write-wins), keeps
`agent_started = true`, and re-logs a setup duration at least as large as the
earlier one. -/
theorem claim_C6_mark_last_write_wins (tr : CallTracker) (id : String) (sess : Session)
    (t1 dt1 t2 dt2 : Int) (hs : lookupSession tr._call_sessions id = some sess)
    (hle : t1 ≤ t2) :
    (mark_agent_started tr id t1 dt1).2 =
      [LogEvent.agentStartedLog id dt1 (t1 - sess.start_time)] ∧
    (mark_agent_started (mark_agent_started tr id t1 dt1).1 id t2 dt2).2 =
      [LogEvent.agentStartedLog id dt2 (t2 - sess.start_time)] ∧
    lookupSession
        (mark_agent_started (mark_agent_started tr id t1 dt1).1 id t2 dt2).1._call_sessions id =
      some { sess with agent_started := true, agent_start_time := some t2 } ∧
    t1 - sess.start_time ≤ t2 - sess.start_time := by
  have h1 := mark_found tr id t1 dt1 sess hs
  have hs1 : lookupSession (mark_agent_started tr id t1 dt1).1._call_sessions id =
      some { sess with agent_started := true, agent_start_time := some t1 } := by
    rw [h1]
    simp [lookup_dictInsert]
  have h2 := mark_found _ id t2 dt2 _ hs1
  refine ⟨by rw [h1], ?_, ?_, by omega⟩
  · rw [h2]
  · rw [h2]
    simp [lookup_dictInsert]

/-- Witness for claim C6 on a registry holding one live session. -/
theorem claim_C6_mark_last_write_wins_witness :
    (mark_agent_started (⟨[("c1", ⟨10, 10, "+1555", "+1777", false, none, none, none, none⟩)]⟩)
        "c1" 11 11).2 = [LogEvent.agentStartedLog "c1" 11 (11 - 10)] ∧
    (mark_agent_started
        (mark_agent_started
          (⟨[("c1", ⟨10, 10, "+1555", "+1777", false, none, none, none, none⟩)]⟩) "c1" 11 11).1
        "c1" 13 13).2 = [LogEvent.agentStartedLog "c1" 13 (13 - 10)] ∧
    lookupSession
        (mark_agent_started
          (mark_agent_started
            (⟨[("c1", ⟨10, 10, "+1555", "+1777", false, none, none, none, none⟩)]⟩) "c1" 11 11).1
          "c1" 13 13).1._call_sessions "c1" =
      some ⟨10, 10, "+1555", "+1777", true, some 13, none, none, none⟩ ∧
    (11 : Int) - 10 ≤ 13 - 10 :=
  claim_C6_mark_last_write_wins
    ⟨[("c1", ⟨10, 10, "+1555", "+1777", false, none, none, none, none⟩)]⟩
    "c1" ⟨10, 10, "+1555", "+1777", false, none, none, none, none⟩ 11 11 13 13
    (by decide) (by decide)

/-- Claim C7: after `begin(id)` immediately followed by `end(id)`, the record
returned by `end` has `duration = end_time - start_time` exactly, and the id is
absent from `get_active_calls` afterwards. -/
theorem claim_C7_duration_and_removal (tr : CallTracker) (id to_phone from_phone : String)
    (t1 dt1 t3 dt3 now : Int) :
    ∃ r,
      (end_call_tracking ((start_call_tracking tr id to_phone from_phone t1 dt1).1)
          id t3 dt3).2.1 = some r ∧
      r.duration = some (t3 - t1) ∧ r.start_time = t1 ∧ r.end_time = some t3 ∧
      id ∉ ((get_active_calls
          (end_call_tracking ((start_call_tracking tr id to_phone from_phone t1 dt1).1)
            id t3 dt3).1 now).map Prod.fst) := by
  have hnew : lookupSession
      ((start_call_tracking tr id to_phone from_phone t1 dt1).1)._call_sessions id =
      some { start_time := t1, start_datetime := dt1, to_phone := to_phone,
             from_phone := from_phone, agent_started := false, agent_start_time := none,
             end_time := none, end_datetime := none, duration := none } :=
    lookup_start_self tr id to_phone from_phone t1 dt1
  have he := end_found _ id t3 dt3 _ hnew
  refine ⟨_, by rw [he], rfl, rfl, rfl, ?_⟩
  apply notMem_activeKeys_of_lookup_none
  rw [he]
  simp [lookup_dictPop]

/-- Claim C1 counterexample: beginning, marking the agent started, and ending a
call in order yields a record with `agent_started = true`, but the returned
record does not contain an `agent_duration` field — `agent_duration` is only a
local variable used in the summary log line. -/
theorem claim_C1_no_agent_duration_field :
    (end_call_tracking
        ((mark_agent_started
            ((start_call_tracking emptyTracker "c1" "+1555" "+1777" 10 10).1) "c1" 11 11).1)
        "c1" 12 12).2.1 =
      some ⟨10, 10, "+1555", "+1777", true, some 11, some 12, some 12, some 2⟩ ∧
    ((⟨10, 10, "+1555", "+1777", true, some 11, some 12, some 12, some 2⟩ : Session).toDict.map
        Prod.fst).contains "agent_duration" = false :=
  ⟨by decide, by decide⟩

/-- Claim C1 (amended): after `begin(id)` then `mark_agent_started(id)` then
`end(id)` (with a nonzero agent timestamp, per Python truthiness), the record
returned by `end` has `agent_started = true` and carries `agent_start_time` and
`end_time`, and `end` computes and logs an agent duration equal to
`end_time - agent_start_time`; the record itself has no `agent_duration` key. -/
theorem claim_C1_agent_duration_logged (tr : CallTracker) (id to_phone from_phone : String)
    (t1 dt1 t2 dt2 t3 dt3 : Int) (h2 : t2 ≠ 0) :
    ∃ r,
      (end_call_tracking
          ((mark_agent_started ((start_call_tracking tr id to_phone from_phone t1 dt1).1)
              id t2 dt2).1) id t3 dt3).2.1 = some r ∧
      r.agent_started = true ∧ r.agent_start_time = some t2 ∧ r.end_time = some t3 ∧
      (end_call_tracking
          ((mark_agent_started ((start_call_tracking tr id to_phone from_phone t1 dt1).1)
              id t2 dt2).1) id t3 dt3).2.2 =
        [LogEvent.callEnded id from_phone to_phone dt1 dt3 (t3 - t1) (some (t3 - t2))] ∧
      (r.toDict.map Prod.fst).contains "agent_duration" = false := by
  have hm := mark_found _ id t2 dt2 _ (lookup_start_self tr id to_phone from_phone t1 dt1)
  have hs2 : lookupSession
      ((mark_agent_started ((start_call_tracking tr id to_phone from_phone t1 dt1).1)
          id t2 dt2).1)._call_sessions id =
      some { start_time := t1, start_datetime := dt1, to_phone := to_phone,
             from_phone := from_phone, agent_started := true, agent_start_time := some t2,
             end_time := none, end_datetime := none, duration := none } := by
    rw [hm]
    simp [lookup_dictInsert]
  have he := end_found _ id t3 dt3 _ hs2
  refine ⟨_, by rw [he], rfl, rfl, rfl, ?_, rfl⟩
  rw [he]
  simp [agentDurationOf, h2]

/-- Witness for the amended claim C1 on a concrete run. -/
theorem claim_C1_agent_duration_logged_witness :
    (11 : Int) ≠ 0 ∧
    ∃ r,
      (end_call_tracking
          ((mark_agent_started ((start_call_tracking emptyTracker "c1" "+1555" "+1777" 10 10).1)
              "c1" 11 11).1) "c1" 12 12).2.1 = some r ∧
      r.agent_started = true ∧ r.agent_start_time = some 11 ∧ r.end_time = some 12 ∧
      (end_call_tracking
          ((mark_agent_started ((start_call_tracking emptyTracker "c1" "+1555" "+1777" 10 10).1)
              "c1" 11 11).1) "c1" 12 12).2.2 =
        [LogEvent.callEnded "c1" "+1777" "+1555" 10 12 (12 - 10) (some (12 - 11))] ∧
      (r.toDict.map Prod.fst).contains "agent_duration" = false :=
  ⟨by decide,
   claim_C1_agent_duration_logged emptyTracker "c1" "+1555" "+1777" 10 10 11 11 12 12
     (by decide)⟩

/-- Witness for claim C7 on a concrete begin/end run. -/
theorem claim_C7_duration_and_removal_witness :
    ∃ r,
      (end_call_tracking ((start_call_tracking emptyTracker "c1" "+1555" "+1777" 10 10).1)
          "c1" 12 12).2.1 = some r ∧
      r.duration = some (12 - 10) ∧ r.start_time = 10 ∧ r.end_time = some 12 ∧
      "c1" ∉ ((get_active_calls
          (end_call_tracking ((start_call_tracking emptyTracker "c1" "+1555" "+1777" 10 10).1)
            "c1" 12 12).1 20).map Prod.fst) :=
  claim_C7_duration_and_removal emptyTracker "c1" "+1555" "+1777" 10 10 12 12 20
